import Mathlib

/-!
# Verification of the Piwigo upload pipeline (`internal/pkg/piwigo/picture.go`)

Shallow embedding of the upload pipeline of `DirectoriesToAlbums`:
the existence check (`ImageUploadRequired`), the chunked upload
(`UploadImage`, `uploadImageChunks`, `uploadImageChunk`) and the
finalization (`uploadImageFinal`).

Modelling conventions:
* Go errors are plain strings; fallible operations return `Except String α`.
* The network is a parameter: each operation receives the decoded server
  response (or a transport/decode error) for the request it issues, and
  returns the list of network calls it performed together with its result.
* File bytes are `List Nat` with every element `< 256`; `os.Stat` /
  `os.Open` failures are modelled by `Except String Unit` parameters.
* `bufio.Reader.Read` on a regular file is modelled as the deterministic
  read that returns `min (bufferSize, bytesRemaining)` bytes, the empty
  read coinciding with end of file.
* `base64.StdEncoding` (standard alphabet, padded, no line wrapping) is
  modelled by `encodeBase64` / `decodeBase64` below.
-/

/-! ### Base64 (model of Go `encoding/base64` `StdEncoding`) -/

/-- The standard base64 alphabet, in index order. -/
def base64Chars : List Char :=
  "ABCDEFGHIJKLMNOPQRSTUVWXYZabcdefghijklmnopqrstuvwxyz0123456789+/".toList

/-- Character for a six-bit value. -/
def encodeSextet (s : Nat) : Char := base64Chars.getD s '='

/-- Six-bit value of an alphabet character; `none` for characters outside
the alphabet (including the padding character). -/
def decodeSextet (c : Char) : Option Nat := base64Chars.findIdx? (fun x => x == c)

/-- Standard base64 encoding with padding, as produced by Go
`base64.StdEncoding.EncodeToString` (no line wrapping). -/
def encodeBase64 : List Nat → List Char
  | [] => []
  | [b0] =>
    [encodeSextet (b0 / 4), encodeSextet (b0 % 4 * 16), '=', '=']
  | [b0, b1] =>
    [encodeSextet (b0 / 4), encodeSextet (b0 % 4 * 16 + b1 / 16),
     encodeSextet (b1 % 16 * 4), '=']
  | b0 :: b1 :: b2 :: rest =>
    encodeSextet (b0 / 4) :: encodeSextet (b0 % 4 * 16 + b1 / 16) ::
    encodeSextet (b1 % 16 * 4 + b2 / 64) :: encodeSextet (b2 % 64) ::
    encodeBase64 rest

/-- Decoding of a final group carrying one byte (two characters and two
padding characters). -/
def decodeGroup1 (c0 c1 : Char) : Option (List Nat) :=
  match decodeSextet c0, decodeSextet c1 with
  | some s0, some s1 => some [s0 * 4 + s1 / 16]
  | _, _ => none

/-- Decoding of a final group carrying two bytes (three characters and one
padding character). -/
def decodeGroup2 (c0 c1 c2 : Char) : Option (List Nat) :=
  match decodeSextet c0, decodeSextet c1, decodeSextet c2 with
  | some s0, some s1, some s2 => some [s0 * 4 + s1 / 16, s1 % 16 * 16 + s2 / 4]
  | _, _, _ => none

/-- Decoding of a full group of four characters into three bytes. -/
def decodeGroup3 (c0 c1 c2 c3 : Char) : Option (List Nat) :=
  match decodeSextet c0, decodeSextet c1, decodeSextet c2, decodeSextet c3 with
  | some s0, some s1, some s2, some s3 =>
    some [s0 * 4 + s1 / 16, s1 % 16 * 16 + s2 / 4, s2 % 4 * 64 + s3]
  | _, _, _, _ => none

/-- Standard base64 decoding with padding, as performed by Go
`base64.StdEncoding.DecodeString`: groups of four characters, padding
allowed only at the very end. -/
def decodeBase64 : List Char → Option (List Nat)
  | [] => some []
  | c0 :: c1 :: c2 :: c3 :: rest =>
    if c3 = '=' then
      if rest = [] then
        if c2 = '=' then decodeGroup1 c0 c1 else decodeGroup2 c0 c1 c2
      else none
    else
      match decodeGroup3 c0 c1 c2 c3, decodeBase64 rest with
      | some bs, some tail => some (bs ++ tail)
      | _, _ => none
  | _ => none

/-- Decoding a list of payloads and concatenating the results. -/
def decodeAndJoin (payloads : List (List Char)) : Option (List Nat) :=
  (payloads.mapM decodeBase64).map List.flatten

/-! ### Network calls and server responses -/

/-- One outbound form-POST of the upload pipeline, identified by its
`method` field and the request parameters the code sets. -/
inductive NetworkCall where
  | existQuery (md5sumList : String)
  | chunkUpload (data : List Char) (originalSum : String) (position : Nat)
  | finalizeUpload (originalFilename : String) (md5sum : String) (category : Int)
deriving DecidableEq, Repr

/-- True exactly on finalization requests (`pwg.images.add`). -/
def NetworkCall.isFinal : NetworkCall → Bool
  | .finalizeUpload _ _ _ => true
  | _ => false

/-- True exactly on chunk uploads (`pwg.images.addChunk`). -/
def NetworkCall.isChunkUpload : NetworkCall → Bool
  | .chunkUpload _ _ _ => true
  | _ => false

/-- The positions of the chunk uploads of a trace, in trace order. -/
def chunkPositions (trace : List NetworkCall) : List Nat :=
  trace.filterMap fun c =>
    match c with
    | .chunkUpload _ _ p => some p
    | _ => none

/-- The base64 payloads of the chunk uploads of a trace, in trace order. -/
def chunkPayloads (trace : List NetworkCall) : List (List Char) :=
  trace.filterMap fun c =>
    match c with
    | .chunkUpload d _ _ => some d
    | _ => none

/-- The part of `PiwigoContext` the upload pipeline reads: the configured
chunk size in kilobytes (a Go `int`). -/
structure PiwigoContext where
  ChunkSizeInKB : Int
deriving Repr

/-- Decoded `pwg.images.addChunk` response (`uploadChunkResponse`); the Go
struct also carries an untyped `result` field the code never reads. -/
structure UploadChunkResponse where
  stat : String
deriving Repr

/-- Decoded `pwg.images.add` response (`fileAddResponse`). -/
structure FileAddResponse where
  stat : String
  imageId : Int
  url : String
deriving Repr

/-- Decoded `pwg.images.exist` response (`imageExistResponse`): the JSON
object `result` is an association list from md5 sum to marker string with
pairwise distinct keys. -/
structure ImageExistResponse where
  stat : String
  result : List (String × String)
deriving Repr

/-! ### The existence check (`ImageUploadRequired`) -/

/-- Model of `ImageUploadRequired`: joins the hashes with commas, issues one
`pwg.images.exist` query, and on a decoded response collects the keys of the
`result` map whose marker value is the empty string. `resp` is the server's
behavior: the decoded response body or a transport/decode error. -/
def ImageUploadRequired (md5sums : List String)
    (resp : Except String ImageExistResponse) :
    List NetworkCall × Except String (List String) :=
  let md5sumList := String.intercalate "," md5sums
  ([NetworkCall.existQuery md5sumList],
    match resp with
    | Except.error e => Except.error e
    | Except.ok r =>
      Except.ok ((r.result.filter fun p => p.2 == "").map Prod.fst))

/-! ### Chunk upload (`uploadImageChunk`, `uploadImageChunks`) -/

/-- Model of `uploadImageChunk`: one `pwg.images.addChunk` request carrying
the base64 payload, the file's md5 sum and the chunk position; a decoded
response with `stat ≠ "ok"` becomes the error built by
`fmt.Sprintf("Got state %s while uploading chunk %d of %s", ...)`. -/
def uploadImageChunk (resp : Except String UploadChunkResponse)
    (base64chunk : List Char) (md5sum : String) (position : Nat) :
    List NetworkCall × Except String Unit :=
  ([NetworkCall.chunkUpload base64chunk md5sum position],
    match resp with
    | Except.error e => Except.error e
    | Except.ok r =>
      if r.stat ≠ "ok" then
        Except.error ("Got state " ++ r.stat ++ " while uploading chunk " ++
          toString position ++ " of " ++ md5sum)
      else Except.ok ())

/-- The read loop of `uploadImageChunks`: reads the next buffer of at most
`C` bytes, stops on the empty read at end of file, otherwise encodes the
buffer, sends it at the current position and continues at `position + 1`.
`server` maps a chunk request (position and payload) to its decoded response
or a transport/decode error. `fuel` is a structural bound on the remaining
loop iterations: every iteration consumes at least one byte of `data`
whenever the buffer size `C` is positive — the only way the loop is reached,
thanks to the guard in `UploadImage` — so calling it with
`fuel = data.length` gives exactly the behavior of the Go loop and the
fuel-exhausted branch is dead code. -/
def uploadImageChunksLoop (C : Nat)
    (server : Nat → List Char → Except String UploadChunkResponse)
    (md5sum : String) : Nat → Nat → List Nat → List NetworkCall × Except String Unit
  | _, _, [] => ([], Except.ok ())
  | 0, _, _ :: _ => ([], Except.ok ())
  | fuel + 1, position, b :: bs =>
    let buffer := (b :: bs).take C
    let encodedChunk := encodeBase64 buffer
    let first := uploadImageChunk (server position encodedChunk) encodedChunk md5sum position
    match first.2 with
    | Except.error e => (first.1, Except.error e)
    | Except.ok _ =>
      let rest := uploadImageChunksLoop C server md5sum fuel (position + 1) ((b :: bs).drop C)
      (first.1 ++ rest.1, rest.2)

/-- Model of `uploadImageChunks`: opens the file (`openResult` models an
`os.Open` failure), allocates a `ChunkSizeInKB * 1024`-byte buffer and runs
the read loop from position 0. The `numberOfChunks` the Go code computes is
only logged and is not modelled. -/
def uploadImageChunks (ctx : PiwigoContext)
    (openResult : Except String Unit) (fileData : List Nat) (md5sum : String)
    (server : Nat → List Char → Except String UploadChunkResponse) :
    List NetworkCall × Except String Unit :=
  match openResult with
  | Except.error e => ([], Except.error e)
  | Except.ok _ =>
    uploadImageChunksLoop (ctx.ChunkSizeInKB.toNat * 1024) server md5sum
      fileData.length 0 fileData

/-! ### Finalization (`uploadImageFinal`) and the orchestrator (`UploadImage`) -/

/-- Model of `uploadImageFinal`: one `pwg.images.add` request; a decoded
response with `stat ≠ "ok"` becomes the error built by
`fmt.Sprintf("Got state %s while adding image %s", ...)`; otherwise the
decoded `result.image_id` is returned unchanged. -/
def uploadImageFinal (resp : Except String FileAddResponse)
    (originalFilename : String) (md5sum : String) (categoryId : Int) :
    List NetworkCall × Except String Int :=
  ([NetworkCall.finalizeUpload originalFilename md5sum categoryId],
    match resp with
    | Except.error e => Except.error e
    | Except.ok r =>
      if r.stat ≠ "ok" then
        Except.error ("Got state " ++ r.stat ++ " while adding image " ++ originalFilename)
      else Except.ok r.imageId)

/-- Model of `UploadImage`: rejects a non-positive configured chunk size
before any network or file activity, stats the file (`statResult`), uploads
all chunks, and only on chunk success finalizes. The `fileSizeInKB` the Go
code computes from the stat result is only used for logging and the chunk
count log line, and is not modelled. -/
def UploadImage (ctx : PiwigoContext) (fileName : String) (fileData : List Nat)
    (md5sum : String) (category : Int)
    (statResult : Except String Unit) (openResult : Except String Unit)
    (chunkServer : Nat → List Char → Except String UploadChunkResponse)
    (finalResp : Except String FileAddResponse) :
    List NetworkCall × Except String Int :=
  if ctx.ChunkSizeInKB ≤ 0 then
    ([], Except.error "Uploadchunk size is less or equal to zero. 512 is a recommendet value to begin with.")
  else
    match statResult with
    | Except.error e => ([], Except.error e)
    | Except.ok _ =>
      let chunks := uploadImageChunks ctx openResult fileData md5sum chunkServer
      match chunks.2 with
      | Except.error e => (chunks.1, Except.error e)
      | Except.ok _ =>
        let final := uploadImageFinal finalResp fileName md5sum category
        (chunks.1 ++ final.1, final.2)

/-! ### Derived chunking notions used to state the properties -/

/-- Ceiling division on naturals. -/
def ceilDiv (a b : Nat) : Nat := (a + b - 1) / b

/-- Splitting a byte list into consecutive buffers of `C` bytes, the last
one possibly shorter: the sequence of buffers the read loop produces. -/
def toChunks (C : Nat) (hC : 0 < C) (data : List Nat) : List (List Nat) :=
  if hd : data = [] then []
  else data.take C :: toChunks C hC (data.drop C)
termination_by data.length
decreasing_by
  have hlen : data.length ≠ 0 := fun h => hd (List.eq_nil_of_length_eq_zero h)
  simp only [List.length_drop]
  omega

/-! ### Base64 lemmas -/

/-- Decoding inverts encoding on six-bit values. -/
theorem decodeSextet_encodeSextet : ∀ s : Nat, s < 64 →
    decodeSextet (encodeSextet s) = some s := by
  decide

/-- An alphabet character is never the padding character. -/
theorem encodeSextet_ne_pad : ∀ s : Nat, s < 64 → encodeSextet s ≠ '=' := by
  decide

/-- Round trip of the base64 model: decoding an encoded byte list gives the
byte list back. -/
theorem decodeBase64_encodeBase64 : ∀ l : List Nat, (∀ b ∈ l, b < 256) →
    decodeBase64 (encodeBase64 l) = some l := by
  intro l
  induction l using encodeBase64.induct with
  | case1 => intro _; rfl
  | case2 b0 =>
    intro h
    have hb0 : b0 < 256 := h b0 (List.mem_singleton.mpr rfl)
    have h0 : b0 / 4 < 64 := by omega
    have h1 : b0 % 4 * 16 < 64 := by omega
    simp only [encodeBase64, decodeBase64, if_pos rfl, decodeGroup1,
      decodeSextet_encodeSextet _ h0, decodeSextet_encodeSextet _ h1]
    simp
    omega
  | case3 b0 b1 =>
    intro h
    have hb0 : b0 < 256 := h b0 (by simp)
    have hb1 : b1 < 256 := h b1 (by simp)
    have h0 : b0 / 4 < 64 := by omega
    have h1 : b0 % 4 * 16 + b1 / 16 < 64 := by omega
    have h2 : b1 % 16 * 4 < 64 := by omega
    simp only [encodeBase64, decodeBase64, if_pos rfl,
      if_neg (encodeSextet_ne_pad _ h2), decodeGroup2,
      decodeSextet_encodeSextet _ h0, decodeSextet_encodeSextet _ h1,
      decodeSextet_encodeSextet _ h2]
    simp
    omega
  | case4 b0 b1 b2 rest ih =>
    intro h
    have hb0 : b0 < 256 := h b0 (by simp)
    have hb1 : b1 < 256 := h b1 (by simp)
    have hb2 : b2 < 256 := h b2 (by simp)
    have hrest : ∀ b ∈ rest, b < 256 := fun b hb => h b (by simp [hb])
    have h0 : b0 / 4 < 64 := by omega
    have h1 : b0 % 4 * 16 + b1 / 16 < 64 := by omega
    have h2 : b1 % 16 * 4 + b2 / 64 < 64 := by omega
    have h3 : b2 % 64 < 64 := by omega
    simp only [encodeBase64, decodeBase64, if_neg (encodeSextet_ne_pad _ h3),
      decodeGroup3, decodeSextet_encodeSextet _ h0, decodeSextet_encodeSextet _ h1,
      decodeSextet_encodeSextet _ h2, decodeSextet_encodeSextet _ h3, ih hrest]
    simp
    omega

/-! ### Chunking lemmas -/

/-- Splitting the empty list gives no chunks. -/
theorem toChunks_nil (C : Nat) (hC : 0 < C) : toChunks C hC [] = [] := by
  rw [toChunks]
  simp

/-- Splitting a nonempty list peels off the first buffer. -/
theorem toChunks_cons (C : Nat) (hC : 0 < C) (d : List Nat) (hd : d ≠ []) :
    toChunks C hC d = d.take C :: toChunks C hC (d.drop C) := by
  rw [toChunks]
  simp [hd]

/-- Concatenating the chunks gives the original list back. -/
theorem toChunks_flatten (C : Nat) (hC : 0 < C) :
    ∀ d : List Nat, (toChunks C hC d).flatten = d := by
  intro d
  induction d using toChunks.induct C hC with
  | case1 => rw [toChunks_nil]; rfl
  | case2 d hd ih =>
    rw [toChunks_cons C hC d hd]
    simp [ih]

/-- Every byte of every chunk is a byte of the original list. -/
theorem toChunks_mem (C : Nat) (hC : 0 < C) :
    ∀ d : List Nat, ∀ c ∈ toChunks C hC d, ∀ b ∈ c, b ∈ d := by
  intro d
  induction d using toChunks.induct C hC with
  | case1 => rw [toChunks_nil]; intro c hc; simp at hc
  | case2 d hd ih =>
    rw [toChunks_cons C hC d hd]
    intro c hc b hb
    rcases List.mem_cons.mp hc with h | h
    · exact (List.take_sublist C d).subset (h ▸ hb)
    · exact (List.drop_sublist C d).subset (ih c h b hb)

/-- Recurrence for ceiling division, matching the peeling of one chunk. -/
theorem ceilDiv_sub (C : Nat) (hC : 0 < C) (n : Nat) (hn : 0 < n) :
    ceilDiv n C = ceilDiv (n - C) C + 1 := by
  rcases Nat.lt_or_ge n (C + 1) with h | h
  · have h1 : n - C = 0 := by omega
    have h2 : ceilDiv 0 C = 0 := by
      unfold ceilDiv
      exact Nat.div_eq_of_lt (by omega)
    have h3 : ceilDiv n C = 1 := by
      unfold ceilDiv
      have e : n + C - 1 = (n - 1) + C := by omega
      rw [e, Nat.add_div_right _ hC, Nat.div_eq_of_lt (by omega)]
    rw [h1, h2, h3]
  · unfold ceilDiv
    have e : n + C - 1 = (n - C + C - 1) + C := by omega
    rw [e, Nat.add_div_right _ hC]

/-- The number of chunks is the ceiling of size over chunk size. -/
theorem toChunks_length (C : Nat) (hC : 0 < C) :
    ∀ d : List Nat, (toChunks C hC d).length = ceilDiv d.length C := by
  intro d
  induction d using toChunks.induct C hC with
  | case1 =>
    rw [toChunks_nil]
    unfold ceilDiv
    simp [Nat.div_eq_of_lt (show C - 1 < C by omega)]
  | case2 d hd ih =>
    have hlen : 0 < d.length := List.length_pos.mpr hd
    rw [toChunks_cons C hC d hd, ceilDiv_sub C hC d.length hlen]
    simp [ih]

/-! ### Read-loop lemmas -/

/-- Pulling one chunk upload off a trace of positions. -/
theorem chunkPositions_cons_chunk (pl : List Char) (m : String) (p : Nat)
    (l : List NetworkCall) :
    chunkPositions (NetworkCall.chunkUpload pl m p :: l) = p :: chunkPositions l := rfl

/-- Pulling one chunk upload off a trace of payloads. -/
theorem chunkPayloads_cons_chunk (pl : List Char) (m : String) (p : Nat)
    (l : List NetworkCall) :
    chunkPayloads (NetworkCall.chunkUpload pl m p :: l) = pl :: chunkPayloads l := rfl

/-- The read loop only ever issues chunk uploads. -/
theorem uploadImageChunksLoop_trace_chunkOnly (C : Nat)
    (server : Nat → List Char → Except String UploadChunkResponse) (md5sum : String) :
    ∀ (fuel p : Nat) (d : List Nat),
      ∀ c ∈ (uploadImageChunksLoop C server md5sum fuel p d).1,
        c.isChunkUpload = true := by
  intro fuel
  induction fuel with
  | zero =>
    intro p d c hc
    cases d with
    | nil => simp [uploadImageChunksLoop] at hc
    | cons b bs => simp [uploadImageChunksLoop] at hc
  | succ k ih =>
    intro p d c hc
    cases d with
    | nil => simp [uploadImageChunksLoop] at hc
    | cons b bs =>
      simp only [uploadImageChunksLoop, uploadImageChunk] at hc
      rcases hs : server p (encodeBase64 (List.take C (b :: bs))) with e | r
      · simp [hs] at hc
        subst hc
        rfl
      · simp only [hs] at hc
        by_cases hstat : r.stat = "ok"
        · simp [hstat] at hc
          rcases hc with h | h
          · subst h; rfl
          · exact ih (p + 1) ((b :: bs).drop C) c h
        · simp [hstat] at hc
          subst hc
          rfl

/-- On a successful run with a positive buffer size and enough fuel — the
way `uploadImageChunks` calls it — the read loop sends exactly the buffers
of `toChunks` in order: the positions are consecutive from the start
position and the payloads are the base64-encoded buffers. -/
theorem uploadImageChunksLoop_ok_spec (C : Nat) (hC : 0 < C)
    (server : Nat → List Char → Except String UploadChunkResponse) (md5sum : String) :
    ∀ (fuel p : Nat) (d : List Nat), d.length ≤ fuel →
      (uploadImageChunksLoop C server md5sum fuel p d).2 = Except.ok () →
      chunkPositions (uploadImageChunksLoop C server md5sum fuel p d).1 =
        (List.range (toChunks C hC d).length).map (fun i => p + i) ∧
      chunkPayloads (uploadImageChunksLoop C server md5sum fuel p d).1 =
        (toChunks C hC d).map encodeBase64 := by
  intro fuel
  induction fuel with
  | zero =>
    intro p d hlen _
    have hd : d = [] := List.eq_nil_of_length_eq_zero (by omega)
    subst hd
    rw [toChunks_nil]
    simp [uploadImageChunksLoop, chunkPositions, chunkPayloads]
  | succ k ih =>
    intro p d hlen hok
    cases d with
    | nil =>
      rw [toChunks_nil]
      simp [uploadImageChunksLoop, chunkPositions, chunkPayloads]
    | cons b bs =>
      have hd : (b :: bs) ≠ [] := by simp
      rw [toChunks_cons C hC (b :: bs) hd]
      simp only [uploadImageChunksLoop, uploadImageChunk] at hok ⊢
      rcases hs : server p (encodeBase64 (List.take C (b :: bs))) with e | r
      · simp [hs] at hok
      · by_cases hstat : r.stat = "ok"
        · simp only [hs] at hok ⊢
          simp [hstat] at hok ⊢
          obtain ⟨ih1, ih2⟩ := ih (p + 1) ((b :: bs).drop C)
            (by simp only [List.length_drop, List.length_cons] at hlen ⊢; omega) hok
          constructor
          · rw [chunkPositions_cons_chunk, ih1, toChunks_length C hC,
              List.range_succ_eq_map]
            simp only [List.map_cons, Nat.add_zero, List.map_map]
            congr 1
            refine List.map_congr_left fun i _ => ?_
            simp [Function.comp]
            omega
          · rw [chunkPayloads_cons_chunk, ih2]
        · simp only [hs] at hok
          simp [hstat] at hok

/-- A trace of chunk uploads has one position entry per trace element. -/
theorem chunkPositions_length_of_chunkOnly :
    ∀ tr : List NetworkCall, (∀ c ∈ tr, c.isChunkUpload = true) →
      (chunkPositions tr).length = tr.length := by
  intro tr
  induction tr with
  | nil => intro _; rfl
  | cons c l ih =>
    intro h
    have hc := h c (by simp)
    cases c with
    | chunkUpload pl m p =>
      rw [chunkPositions_cons_chunk]
      simp [ih fun x hx => h x (by simp [hx])]
    | existQuery s => simp [NetworkCall.isChunkUpload] at hc
    | finalizeUpload a b q => simp [NetworkCall.isChunkUpload] at hc

/-- A chunk upload is not a finalization request. -/
theorem isFinal_false_of_isChunkUpload :
    ∀ c : NetworkCall, c.isChunkUpload = true → c.isFinal = false := by
  intro c h
  cases c with
  | chunkUpload pl m p => rfl
  | existQuery s => simp [NetworkCall.isChunkUpload] at h
  | finalizeUpload a b q => simp [NetworkCall.isChunkUpload] at h

/-- Decoding the encoded buffers of a byte list and concatenating them
gives the byte list back. -/
theorem decodeAndJoin_toChunks (C : Nat) (hC : 0 < C) (d : List Nat)
    (h : ∀ b ∈ d, b < 256) :
    decodeAndJoin ((toChunks C hC d).map encodeBase64) = some d := by
  have key : ∀ cs : List (List Nat), (∀ c ∈ cs, ∀ b ∈ c, b < 256) →
      (cs.map encodeBase64).mapM decodeBase64 = some cs := by
    intro cs
    induction cs with
    | nil => intro _; rfl
    | cons c l ih =>
      intro hcs
      simp only [List.map_cons, List.mapM_cons,
        decodeBase64_encodeBase64 c (hcs c (by simp)),
        ih fun x hx b hb => hcs x (by simp [hx]) b hb]
      rfl
  unfold decodeAndJoin
  rw [key _ fun c hc b hb => h b (toChunks_mem C hC d c hc b hb)]
  simp [toChunks_flatten C hC d]

/-- The trace of `uploadImageChunks` consists only of chunk uploads. -/
theorem uploadImageChunks_trace_chunkOnly (ctx : PiwigoContext)
    (openResult : Except String Unit)
    (fileData : List Nat) (md5sum : String)
    (server : Nat → List Char → Except String UploadChunkResponse) :
    ∀ c ∈ (uploadImageChunks ctx openResult fileData md5sum server).1,
      c.isChunkUpload = true := by
  cases openResult with
  | error e => simp [uploadImageChunks]
  | ok u =>
    intro c hc
    exact uploadImageChunksLoop_trace_chunkOnly _ server md5sum fileData.length 0 fileData
      c (by simpa [uploadImageChunks] using hc)

/-! ### Claim C1 -/

/-- C1, as stated, is false: for input hash `"a1b2"` and a decoded response
whose `result` map does not contain `"a1b2"` at all (marker absent), the
code classifies nothing — the returned missing set is empty, although the
claim requires a hash with an absent marker to be classified missing. -/
theorem c1_counterexample :
    ¬ (∀ (md5sums : List String) (r : ImageExistResponse) (missing : List String),
        (ImageUploadRequired md5sums (Except.ok r)).2 = Except.ok missing →
        ∀ h ∈ md5sums,
          (h ∈ missing ↔
            (List.lookup h r.result = none ∨ List.lookup h r.result = some ""))) := by
  intro hcl
  have := hcl ["a1b2"] ⟨"ok", []⟩ [] rfl "a1b2" (by simp)
  simp at this

/-- C1 amended: the existence check classifies the keys of the decoded
response, not the input hashes: a hash is in the missing set exactly when it
appears in the response `result` with an empty marker value, and when the
response keys are pairwise distinct no hash is classified twice. Input
hashes absent from the response are left unclassified. -/
theorem c1_missing_iff_empty_marker (md5sums : List String) (r : ImageExistResponse)
    (missing : List String)
    (hm : (ImageUploadRequired md5sums (Except.ok r)).2 = Except.ok missing) :
    (∀ h : String, h ∈ missing ↔ (h, "") ∈ r.result) ∧
    ((r.result.map Prod.fst).Nodup → missing.Nodup) := by
  simp only [ImageUploadRequired, Except.ok.injEq] at hm
  subst hm
  constructor
  · intro h
    simp only [List.mem_map, List.mem_filter]
    constructor
    · rintro ⟨⟨a, b⟩, ⟨hmem, hb⟩, rfl⟩
      simp only [beq_iff_eq] at hb
      simpa [hb] using hmem
    · intro hmem
      exact ⟨(h, ""), ⟨hmem, by simp⟩, rfl⟩
  · intro hnd
    exact hnd.sublist ((List.filter_sublist _).map Prod.fst)

/-- Witness for C1 at a concrete response containing one empty and one
non-empty marker. -/
theorem c1_witness :
    (ImageUploadRequired ["a"] (Except.ok ⟨"ok", [("a", ""), ("b", "x")]⟩)).2 =
      Except.ok ["a"] ∧
    ((∀ h : String, h ∈ ["a"] ↔ (h, "") ∈ [("a", ""), ("b", "x")]) ∧
     (([("a", ""), ("b", "x")].map Prod.fst).Nodup → (["a"] : List String).Nodup)) :=
  ⟨rfl, c1_missing_iff_empty_marker ["a"] ⟨"ok", [("a", ""), ("b", "x")]⟩ ["a"] rfl⟩

/-! ### Claim C4 -/

/-- C4, as stated, is false: even for an empty input set the code issues the
query and propagates a transport/decode failure as an error instead of
returning an empty missing set. -/
theorem c4_counterexample :
    ¬ (∀ resp : Except String ImageExistResponse,
        (ImageUploadRequired [] resp).2 = Except.ok []) := by
  intro hcl
  have := hcl (Except.error "network failure")
  simp [ImageUploadRequired] at this

/-- C4 amended: empty input takes no special path; the code still issues the
one outbound query (with an empty `md5sum_list`), propagates transport and
decode errors as errors even for empty input, and returns an empty missing
set with no error exactly when the decoded response has no empty-marker
entry. -/
theorem c4_empty_input_empty_result :
    (∀ e : String,
      ImageUploadRequired [] (Except.error e) =
        ([NetworkCall.existQuery ""], Except.error e)) ∧
    ∀ r : ImageExistResponse,
      (ImageUploadRequired [] (Except.ok r)).1 = [NetworkCall.existQuery ""] ∧
      ((ImageUploadRequired [] (Except.ok r)).2 = Except.ok [] ↔
        ∀ p ∈ r.result, p.2 ≠ "") := by
  refine ⟨fun e => rfl, fun r => ⟨rfl, ?_⟩⟩
  simp only [ImageUploadRequired, Except.ok.injEq]
  constructor
  · intro h p hp
    have hfil : r.result.filter (fun q => q.2 == "") = [] :=
      List.map_eq_nil_iff.mp h
    have := List.filter_eq_nil_iff.mp hfil p hp
    simpa using this
  · intro h
    have hfil : r.result.filter (fun q => q.2 == "") = [] := by
      rw [List.filter_eq_nil_iff]
      intro a ha
      simp [h a ha]
    simp [hfil]

/-- Witness for C4: a transport error on empty input is returned as that
error, and a concrete decoded response with one non-empty marker yields the
empty missing set, both with the single outbound query. -/
theorem c4_witness :
    ImageUploadRequired [] (Except.error "network failure") =
      ([NetworkCall.existQuery ""], Except.error "network failure") ∧
    ((ImageUploadRequired [] (Except.ok ⟨"ok", [("c3d4", "found")]⟩)).1 =
      [NetworkCall.existQuery ""] ∧
     ((ImageUploadRequired [] (Except.ok ⟨"ok", [("c3d4", "found")]⟩)).2 =
        Except.ok [] ↔
       ∀ p ∈ [("c3d4", "found")], p.2 ≠ "")) :=
  ⟨c4_empty_input_empty_result.1 "network failure",
   c4_empty_input_empty_result.2 ⟨"ok", [("c3d4", "found")]⟩⟩

/-! ### Claim C10 -/

/-- C10: the missing set is computed solely from the decoded response map;
two calls with different input hash lists but equal decoded `result`
mappings return equal missing sets. -/
theorem c10_missing_depends_only_on_response (m1 m2 : List String)
    (r1 r2 : ImageExistResponse) (h : r1.result = r2.result) :
    (ImageUploadRequired m1 (Except.ok r1)).2 = (ImageUploadRequired m2 (Except.ok r2)).2 := by
  simp [ImageUploadRequired, h]

/-- Witness for C10: different inputs and stat fields, same result map. -/
theorem c10_witness :
    (⟨"ok", [("a", "")]⟩ : ImageExistResponse).result =
      (⟨"fail", [("a", "")]⟩ : ImageExistResponse).result ∧
    (ImageUploadRequired ["x", "y"] (Except.ok ⟨"ok", [("a", "")]⟩)).2 =
      (ImageUploadRequired [] (Except.ok ⟨"fail", [("a", "")]⟩)).2 :=
  ⟨rfl, c10_missing_depends_only_on_response ["x", "y"] [] _ _ rfl⟩

/-! ### Claim C5 -/

/-- C5: a non-positive configured chunk size makes `UploadImage` fail
immediately with the configuration error, with an empty network trace (no
existence query, no chunk upload, no finalization). -/
theorem c5_nonpositive_chunk_size_no_calls (ctx : PiwigoContext)
    (fileName : String) (fileData : List Nat) (md5sum : String) (category : Int)
    (statResult openResult : Except String Unit)
    (chunkServer : Nat → List Char → Except String UploadChunkResponse)
    (finalResp : Except String FileAddResponse)
    (h : ctx.ChunkSizeInKB ≤ 0) :
    UploadImage ctx fileName fileData md5sum category statResult openResult
        chunkServer finalResp =
      ([], Except.error "Uploadchunk size is less or equal to zero. 512 is a recommendet value to begin with.") := by
  simp [UploadImage, h]

/-- Witness for C5 at chunk size 0. -/
theorem c5_witness :
    ((⟨0⟩ : PiwigoContext).ChunkSizeInKB ≤ 0) ∧
    UploadImage ⟨0⟩ "f.jpg" [1, 2, 3] "abc" 7 (Except.ok ()) (Except.ok ())
        (fun _ _ => Except.ok ⟨"ok"⟩) (Except.ok ⟨"ok", 1, "u"⟩) =
      ([], Except.error "Uploadchunk size is less or equal to zero. 512 is a recommendet value to begin with.") :=
  ⟨by decide,
   c5_nonpositive_chunk_size_no_calls ⟨0⟩ "f.jpg" [1, 2, 3] "abc" 7 (Except.ok ())
     (Except.ok ()) (fun _ _ => Except.ok ⟨"ok"⟩) (Except.ok ⟨"ok", 1, "u"⟩) (by decide)⟩

/-! ### Claim C6 -/

/-- C6, as stated, is false: `uploadImageFinal` performs no positivity check
on the decoded identifier; a server reporting `stat = "ok"` with
`image_id = 0` makes it return 0 without error. -/
theorem c6_counterexample :
    ¬ (∀ (resp : Except String FileAddResponse) (fname md5sum : String)
        (cat imageId : Int),
        (uploadImageFinal resp fname md5sum cat).2 = Except.ok imageId →
        0 < imageId) := by
  intro hcl
  have := hcl (Except.ok ⟨"ok", 0, "u"⟩) "f" "m" 1 0 rfl
  omega

/-- C6 amended: on a response with `stat = "ok"`, `uploadImageFinal` returns
without error exactly the server-reported `image_id`, whatever its value;
the identifier is positive only when the server reports a positive one. -/
theorem c6_success_returns_server_image_id (r : FileAddResponse)
    (fname md5sum : String) (cat : Int) (h : r.stat = "ok") :
    (uploadImageFinal (Except.ok r) fname md5sum cat).2 = Except.ok r.imageId := by
  simp [uploadImageFinal, h]

/-- Witness for C6 at a concrete successful response. -/
theorem c6_witness :
    (⟨"ok", 17, "u"⟩ : FileAddResponse).stat = "ok" ∧
    (uploadImageFinal (Except.ok ⟨"ok", 17, "u"⟩) "f.jpg" "abc" 3).2 = Except.ok 17 :=
  ⟨rfl, c6_success_returns_server_image_id ⟨"ok", 17, "u"⟩ "f.jpg" "abc" 3 rfl⟩

/-- A positive chunk size in KB gives a positive buffer size in bytes. -/
theorem chunkSizeBytes_pos (ctx : PiwigoContext) (hC : 0 < ctx.ChunkSizeInKB) :
    0 < ctx.ChunkSizeInKB.toNat * 1024 := by omega

/-! ### Claim C2 -/

/-- C2: a successful run of `uploadImageChunks` on a file of `S` bytes with
configured chunk size `C = ChunkSizeInKB * 1024` bytes performs exactly
`ceil(S / C)` chunk transmissions and nothing else, whose zero-based
positions are exactly `0, 1, ..., ceil(S / C) - 1` in increasing order. -/
theorem c2_chunk_count_and_positions (ctx : PiwigoContext)
    (hC : 0 < ctx.ChunkSizeInKB) (openResult : Except String Unit)
    (fileData : List Nat) (md5sum : String)
    (server : Nat → List Char → Except String UploadChunkResponse)
    (hok : (uploadImageChunks ctx openResult fileData md5sum server).2 = Except.ok ()) :
    (uploadImageChunks ctx openResult fileData md5sum server).1.length =
      ceilDiv fileData.length (ctx.ChunkSizeInKB.toNat * 1024) ∧
    chunkPositions (uploadImageChunks ctx openResult fileData md5sum server).1 =
      List.range (ceilDiv fileData.length (ctx.ChunkSizeInKB.toNat * 1024)) ∧
    ∀ c ∈ (uploadImageChunks ctx openResult fileData md5sum server).1,
      c.isChunkUpload = true := by
  have hco := uploadImageChunks_trace_chunkOnly ctx openResult fileData md5sum server
  cases openResult with
  | error e => simp [uploadImageChunks] at hok
  | ok u =>
    simp only [uploadImageChunks] at hok hco ⊢
    obtain ⟨hpos, _⟩ := uploadImageChunksLoop_ok_spec _ (chunkSizeBytes_pos ctx hC)
      server md5sum fileData.length 0 fileData le_rfl hok
    have hrange : chunkPositions
        (uploadImageChunksLoop (ctx.ChunkSizeInKB.toNat * 1024) server md5sum
          fileData.length 0 fileData).1 =
        List.range (ceilDiv fileData.length (ctx.ChunkSizeInKB.toNat * 1024)) := by
      rw [hpos, toChunks_length]
      simp
    refine ⟨?_, hrange, hco⟩
    rw [← chunkPositions_length_of_chunkOnly _ hco, hrange, List.length_range]

/-- Witness for C2: one byte with a 1 KB chunk size gives one transmission
at position 0. -/
theorem c2_witness :
    ((0 : Int) < (⟨1⟩ : PiwigoContext).ChunkSizeInKB ∧
     (uploadImageChunks ⟨1⟩ (Except.ok ()) [7] "m"
        (fun _ _ => Except.ok ⟨"ok"⟩)).2 = Except.ok ()) ∧
    ((uploadImageChunks ⟨1⟩ (Except.ok ()) [7] "m"
        (fun _ _ => Except.ok ⟨"ok"⟩)).1.length = ceilDiv 1 1024 ∧
     chunkPositions (uploadImageChunks ⟨1⟩ (Except.ok ()) [7] "m"
        (fun _ _ => Except.ok ⟨"ok"⟩)).1 = List.range (ceilDiv 1 1024) ∧
     ∀ c ∈ (uploadImageChunks ⟨1⟩ (Except.ok ()) [7] "m"
        (fun _ _ => Except.ok ⟨"ok"⟩)).1, c.isChunkUpload = true) :=
  ⟨⟨Int.one_pos, rfl⟩,
   c2_chunk_count_and_positions ⟨1⟩ Int.one_pos (Except.ok ()) [7] "m"
     (fun _ _ => Except.ok ⟨"ok"⟩) rfl⟩

/-! ### Claim C9 -/

/-- C9: on a successful run of `uploadImageChunks`, concatenating the
base64-decoded payloads of the transmitted chunks, in transmission order,
reproduces the file's bytes exactly. -/
theorem c9_reassembly_identity (ctx : PiwigoContext)
    (hC : 0 < ctx.ChunkSizeInKB) (openResult : Except String Unit)
    (fileData : List Nat) (md5sum : String)
    (server : Nat → List Char → Except String UploadChunkResponse)
    (hbytes : ∀ b ∈ fileData, b < 256)
    (hok : (uploadImageChunks ctx openResult fileData md5sum server).2 = Except.ok ()) :
    decodeAndJoin (chunkPayloads
      (uploadImageChunks ctx openResult fileData md5sum server).1) = some fileData := by
  cases openResult with
  | error e => simp [uploadImageChunks] at hok
  | ok u =>
    simp only [uploadImageChunks] at hok ⊢
    obtain ⟨_, hpay⟩ := uploadImageChunksLoop_ok_spec _ (chunkSizeBytes_pos ctx hC)
      server md5sum fileData.length 0 fileData le_rfl hok
    rw [hpay, decodeAndJoin_toChunks _ (chunkSizeBytes_pos ctx hC) fileData hbytes]

/-- Witness for C9: a two-byte file is reassembled from its payloads. -/
theorem c9_witness :
    ((0 : Int) < (⟨1⟩ : PiwigoContext).ChunkSizeInKB ∧
     (∀ b ∈ [7, 200], b < 256) ∧
     (uploadImageChunks ⟨1⟩ (Except.ok ()) [7, 200] "m"
        (fun _ _ => Except.ok ⟨"ok"⟩)).2 = Except.ok ()) ∧
    decodeAndJoin (chunkPayloads
      (uploadImageChunks ⟨1⟩ (Except.ok ()) [7, 200] "m"
        (fun _ _ => Except.ok ⟨"ok"⟩)).1) = some [7, 200] :=
  ⟨⟨Int.one_pos, by decide, rfl⟩,
   c9_reassembly_identity ⟨1⟩ Int.one_pos (Except.ok ()) [7, 200] "m"
     (fun _ _ => Except.ok ⟨"ok"⟩) (by decide) rfl⟩

/-! ### Claim C3 -/

/-- C3: if the chunk phase of `UploadImage` fails — transport failure,
decode failure, or a server status other than `"ok"` on any chunk — then no
finalization request appears in the trace and `UploadImage` returns
exactly the chunk error. -/
theorem c3_chunk_error_aborts_before_final (ctx : PiwigoContext)
    (hC : 0 < ctx.ChunkSizeInKB) (fileName : String) (fileData : List Nat)
    (md5sum : String) (category : Int) (openResult : Except String Unit)
    (chunkServer : Nat → List Char → Except String UploadChunkResponse)
    (finalResp : Except String FileAddResponse) (e : String)
    (hchunk : (uploadImageChunks ctx openResult fileData md5sum chunkServer).2 =
      Except.error e) :
    (UploadImage ctx fileName fileData md5sum category (Except.ok ()) openResult
        chunkServer finalResp).2 = Except.error e ∧
    ∀ c ∈ (UploadImage ctx fileName fileData md5sum category (Except.ok ()) openResult
        chunkServer finalResp).1, c.isFinal = false := by
  have hK : ¬ ctx.ChunkSizeInKB ≤ 0 := by omega
  constructor
  · simp only [UploadImage, if_neg hK, hchunk]
  · intro c hc
    simp only [UploadImage, if_neg hK, hchunk] at hc
    exact isFinal_false_of_isChunkUpload c
      (uploadImageChunks_trace_chunkOnly ctx openResult fileData md5sum chunkServer c hc)

/-- Witness for C3: a transport failure on the first chunk. -/
theorem c3_witness :
    ((0 : Int) < (⟨1⟩ : PiwigoContext).ChunkSizeInKB ∧
     (uploadImageChunks ⟨1⟩ (Except.ok ()) [0] "m"
        (fun _ _ => Except.error "boom")).2 = Except.error "boom") ∧
    ((UploadImage ⟨1⟩ "f.jpg" [0] "m" 4 (Except.ok ()) (Except.ok ())
        (fun _ _ => Except.error "boom") (Except.ok ⟨"ok", 1, "u"⟩)).2 =
      Except.error "boom" ∧
     ∀ c ∈ (UploadImage ⟨1⟩ "f.jpg" [0] "m" 4 (Except.ok ()) (Except.ok ())
        (fun _ _ => Except.error "boom") (Except.ok ⟨"ok", 1, "u"⟩)).1,
       c.isFinal = false) :=
  ⟨⟨Int.one_pos, rfl⟩,
   c3_chunk_error_aborts_before_final ⟨1⟩ Int.one_pos "f.jpg" [0] "m" 4
     (Except.ok ()) (fun _ _ => Except.error "boom") (Except.ok ⟨"ok", 1, "u"⟩)
     "boom" rfl⟩

/-! ### Claim C8 -/

/-- C8: chunk payloads are standard base64 without line wrapping — modelled
by `encodeBase64`, the encoding `uploadImageChunksLoop` applies to every
buffer — and for every byte sequence, including the empty and the
single-byte sequence, decoding the encoded payload reproduces the original
bytes exactly. -/
theorem c8_base64_round_trip : ∀ l : List Nat, (∀ b ∈ l, b < 256) →
    decodeBase64 (encodeBase64 l) = some l :=
  decodeBase64_encodeBase64

/-- Witness for C8 on the empty, a single-byte, and a four-byte sequence. -/
theorem c8_witness :
    ((∀ b ∈ ([] : List Nat), b < 256) ∧
     decodeBase64 (encodeBase64 []) = some []) ∧
    ((∀ b ∈ [200], b < 256) ∧
     decodeBase64 (encodeBase64 [200]) = some [200]) ∧
    ((∀ b ∈ [0, 255, 7, 128], b < 256) ∧
     decodeBase64 (encodeBase64 [0, 255, 7, 128]) = some [0, 255, 7, 128]) :=
  ⟨⟨by decide, c8_base64_round_trip [] (by decide)⟩,
   ⟨by decide, c8_base64_round_trip [200] (by decide)⟩,
   ⟨by decide, c8_base64_round_trip [0, 255, 7, 128] (by decide)⟩⟩

/-- One successful step of the read loop: an accepted chunk prepends its
call to the trace of the remaining iterations. -/
theorem uploadImageChunksLoop_step_ok (C : Nat)
    (server : Nat → List Char → Except String UploadChunkResponse)
    (md5sum : String) (fuel p b : Nat) (bs : List Nat) (r : UploadChunkResponse)
    (hs : server p (encodeBase64 ((b :: bs).take C)) = Except.ok r)
    (hr : r.stat = "ok") :
    uploadImageChunksLoop C server md5sum (fuel + 1) p (b :: bs) =
      (NetworkCall.chunkUpload (encodeBase64 ((b :: bs).take C)) md5sum p ::
         (uploadImageChunksLoop C server md5sum fuel (p + 1) ((b :: bs).drop C)).1,
       (uploadImageChunksLoop C server md5sum fuel (p + 1) ((b :: bs).drop C)).2) := by
  simp [uploadImageChunksLoop, uploadImageChunk, hs, hr]

/-- One rejected step of the read loop: a chunk answered with a status
other than `"ok"` ends the loop with the descriptive error. -/
theorem uploadImageChunksLoop_step_err (C : Nat)
    (server : Nat → List Char → Except String UploadChunkResponse)
    (md5sum : String) (fuel p b : Nat) (bs : List Nat) (r : UploadChunkResponse)
    (hs : server p (encodeBase64 ((b :: bs).take C)) = Except.ok r)
    (hr : r.stat ≠ "ok") :
    uploadImageChunksLoop C server md5sum (fuel + 1) p (b :: bs) =
      ([NetworkCall.chunkUpload (encodeBase64 ((b :: bs).take C)) md5sum p],
       Except.error ("Got state " ++ r.stat ++ " while uploading chunk " ++
         toString p ++ " of " ++ md5sum)) := by
  simp [uploadImageChunksLoop, uploadImageChunk, hs, hr]

/-- The result component of one successful step of the read loop. -/
theorem uploadImageChunksLoop_step_ok_snd (C : Nat)
    (server : Nat → List Char → Except String UploadChunkResponse)
    (md5sum : String) (fuel p b : Nat) (bs : List Nat) (r : UploadChunkResponse)
    (hs : server p (encodeBase64 ((b :: bs).take C)) = Except.ok r)
    (hr : r.stat = "ok") :
    (uploadImageChunksLoop C server md5sum (fuel + 1) p (b :: bs)).2 =
      (uploadImageChunksLoop C server md5sum fuel (p + 1) ((b :: bs).drop C)).2 := by
  rw [uploadImageChunksLoop_step_ok C server md5sum fuel p b bs r hs hr]

/-- The result component of one rejected step of the read loop. -/
theorem uploadImageChunksLoop_step_err_snd (C : Nat)
    (server : Nat → List Char → Except String UploadChunkResponse)
    (md5sum : String) (fuel p b : Nat) (bs : List Nat) (r : UploadChunkResponse)
    (hs : server p (encodeBase64 ((b :: bs).take C)) = Except.ok r)
    (hr : r.stat ≠ "ok") :
    (uploadImageChunksLoop C server md5sum (fuel + 1) p (b :: bs)).2 =
      Except.error ("Got state " ++ r.stat ++ " while uploading chunk " ++
        toString p ++ " of " ++ md5sum) := by
  rw [uploadImageChunksLoop_step_err C server md5sum fuel p b bs r hs hr]

/-- When the chunk phase fails, `UploadImage` returns the chunk trace and
the chunk error unchanged. -/
theorem UploadImage_chunkError (ctx : PiwigoContext)
    (hK : ¬ ctx.ChunkSizeInKB ≤ 0) (fileName : String) (fileData : List Nat)
    (md5sum : String) (category : Int) (openResult : Except String Unit)
    (chunkServer : Nat → List Char → Except String UploadChunkResponse)
    (finalResp : Except String FileAddResponse) (e : String)
    (hchunk : (uploadImageChunks ctx openResult fileData md5sum chunkServer).2 =
      Except.error e) :
    UploadImage ctx fileName fileData md5sum category (Except.ok ()) openResult
        chunkServer finalResp =
      ((uploadImageChunks ctx openResult fileData md5sum chunkServer).1,
       Except.error e) := by
  simp only [UploadImage, if_neg hK, hchunk]

/-! ### Claim C7 -/

/-- C7: a chunk rejected by the server (decoded `stat ≠ "ok"`) produces the
error message naming the reported status, the zero-based chunk position and
the file's content hash; in particular, on a 2049-byte file with 1 KB chunk
size, a server answering `stat = "fail"` at position 2 and `"ok"` elsewhere
makes `UploadImage` abort with the error naming position 2 and the hash,
with no finalization request in the trace. -/
theorem c7_chunk_rejection_error_details (r : UploadChunkResponse)
    (payload : List Char) (md5sum : String) (p : Nat) (h : r.stat ≠ "ok") :
    (uploadImageChunk (Except.ok r) payload md5sum p).2 =
      Except.error ("Got state " ++ r.stat ++ " while uploading chunk " ++
        toString p ++ " of " ++ md5sum) ∧
    ((UploadImage ⟨1⟩ "f.jpg" (List.replicate 2049 0) "abc123" 5 (Except.ok ())
        (Except.ok ())
        (fun q _ => if q == 2 then Except.ok ⟨"fail"⟩ else Except.ok ⟨"ok"⟩)
        (Except.ok ⟨"ok", 1, "u"⟩)).2 =
      Except.error "Got state fail while uploading chunk 2 of abc123" ∧
     ∀ c ∈ (UploadImage ⟨1⟩ "f.jpg" (List.replicate 2049 0) "abc123" 5 (Except.ok ())
        (Except.ok ())
        (fun q _ => if q == 2 then Except.ok ⟨"fail"⟩ else Except.ok ⟨"ok"⟩)
        (Except.ok ⟨"ok", 1, "u"⟩)).1, c.isFinal = false) := by
  have hd0 : List.replicate 2049 (0 : Nat) = 0 :: List.replicate 2048 0 := by
    rw [show (2049 : Nat) = 2048 + 1 from rfl, List.replicate_succ]
  have hd1 : List.replicate 1025 (0 : Nat) = 0 :: List.replicate 1024 0 := by
    rw [show (1025 : Nat) = 1024 + 1 from rfl, List.replicate_succ]
  have hdr0 : List.drop 1024 (0 :: List.replicate 2048 (0 : Nat)) =
      List.replicate 1025 0 := by
    rw [← hd0, List.drop_replicate]
  have hdr1 : List.drop 1024 (0 :: List.replicate 1024 (0 : Nat)) =
      List.replicate 1 0 := by
    rw [← hd1, List.drop_replicate]
  have hloop2 : (uploadImageChunksLoop 1024
      (fun q _ => if q == 2 then Except.ok ⟨"fail"⟩ else Except.ok ⟨"ok"⟩)
      "abc123" 2047 2 [0]).2 =
      Except.error "Got state fail while uploading chunk 2 of abc123" := by
    rw [show (2047 : Nat) = 2046 + 1 from rfl]
    exact uploadImageChunksLoop_step_err_snd 1024 _ "abc123" 2046 2 0 [] ⟨"fail"⟩ rfl
      (by decide)
  have hloop1 : (uploadImageChunksLoop 1024
      (fun q _ => if q == 2 then Except.ok ⟨"fail"⟩ else Except.ok ⟨"ok"⟩)
      "abc123" 2048 1 (List.replicate 1025 0)).2 =
      Except.error "Got state fail while uploading chunk 2 of abc123" := by
    rw [hd1, show (2048 : Nat) = 2047 + 1 from rfl,
      uploadImageChunksLoop_step_ok_snd 1024 _ "abc123" 2047 1 0
        (List.replicate 1024 0) ⟨"ok"⟩ rfl rfl,
      hdr1, show List.replicate 1 (0 : Nat) = [0] from rfl]
    exact hloop2
  have hloop0 : (uploadImageChunksLoop 1024
      (fun q _ => if q == 2 then Except.ok ⟨"fail"⟩ else Except.ok ⟨"ok"⟩)
      "abc123" 2049 0 (List.replicate 2049 0)).2 =
      Except.error "Got state fail while uploading chunk 2 of abc123" := by
    rw [hd0, show (2049 : Nat) = 2048 + 1 from rfl,
      uploadImageChunksLoop_step_ok_snd 1024 _ "abc123" 2048 0 0
        (List.replicate 2048 0) ⟨"ok"⟩ rfl rfl,
      hdr0]
    exact hloop1
  have hchunks2 : (uploadImageChunks ⟨1⟩ (Except.ok ()) (List.replicate 2049 0)
      "abc123"
      (fun q _ => if q == 2 then Except.ok ⟨"fail"⟩ else Except.ok ⟨"ok"⟩)).2 =
      Except.error "Got state fail while uploading chunk 2 of abc123" := by
    simp only [uploadImageChunks]
    rw [show ((⟨1⟩ : PiwigoContext).ChunkSizeInKB.toNat * 1024) = 1024 from rfl,
      List.length_replicate]
    exact hloop0
  refine ⟨by simp [uploadImageChunk, h], ?_, ?_⟩
  · rw [UploadImage_chunkError ⟨1⟩ (by decide) "f.jpg" (List.replicate 2049 0)
      "abc123" 5 (Except.ok ())
      (fun q _ => if q == 2 then Except.ok ⟨"fail"⟩ else Except.ok ⟨"ok"⟩)
      (Except.ok ⟨"ok", 1, "u"⟩) _ hchunks2]
  · intro c hc
    rw [UploadImage_chunkError ⟨1⟩ (by decide) "f.jpg" (List.replicate 2049 0)
      "abc123" 5 (Except.ok ())
      (fun q _ => if q == 2 then Except.ok ⟨"fail"⟩ else Except.ok ⟨"ok"⟩)
      (Except.ok ⟨"ok", 1, "u"⟩) _ hchunks2] at hc
    dsimp only at hc
    exact isFinal_false_of_isChunkUpload c
      (uploadImageChunks_trace_chunkOnly ⟨1⟩ (Except.ok ())
        (List.replicate 2049 0) "abc123"
        (fun q _ => if q == 2 then Except.ok ⟨"fail"⟩ else Except.ok ⟨"ok"⟩) c hc)

/-- Witness for C7 on a rejected chunk at position 0. -/
theorem c7_witness :
    ((⟨"fail"⟩ : UploadChunkResponse).stat ≠ "ok") ∧
    (uploadImageChunk (Except.ok ⟨"fail"⟩) [] "xyz" 0).2 =
      Except.error "Got state fail while uploading chunk 0 of xyz" :=
  ⟨by decide, (c7_chunk_rejection_error_details ⟨"fail"⟩ [] "xyz" 0 (by decide)).1⟩
